import Mathlib

/-!
Verification development for the menu question-answering entity-resolution
core (src/utils.py, src/models.py, src/index.py, src/tools.py).

Modelling conventions:
* Python strings are Lean `String`s, processed as their `List Char` data.
  The composite of `unicodedata.normalize("NFKD", s)` followed by removal of
  combining characters is abstracted as a per-character expansion
  `fold : Char → List Char`; on ASCII text it is the identity
  (`fun c => [c]`).  All theorems quantify over `fold`.
* Python floats carrying fuzzy scores and prices are modelled as `ℚ`; every
  threshold of the source (90.0, 80.0, 5.0) and every literal used here is
  exactly representable.
* Python `dict`s are modelled as insertion-ordered association lists with
  update-in-place / append-at-end semantics (`alSet`), matching CPython
  dict ordering, which the source relies on in `_consolidate_fuzzy_matches`.
* `rapidfuzz.process.extract` (with `fuzz.WRatio`) is the external
  string-similarity primitive of the spec; it is abstracted as a function
  parameter `extract : String → AList String String → Nat → List (String × ℚ × String)`
  returning `(choice_value, score, choice_key)` triples.
* Fallible Python paths (uncaught `ValueError`, `assert`, `KeyError`) are
  modelled with `Except String`.
-/

namespace MenuQA

/-- Association list with Python-dict semantics (ordered, unique keys). -/
abbrev AList (K V : Type) := List (K × V)

/-- Lookup of a key, first (and by construction only) binding wins. -/
def alGet? {K V : Type} [DecidableEq K] : AList K V → K → Option V
  | [], _ => none
  | (k', v) :: rest, k => if k' = k then some v else alGet? rest k

/-- Python `d[k] = v`: replace the binding in place if the key is present,
append it at the end otherwise (CPython insertion-order semantics). -/
def alSet {K V : Type} [DecidableEq K] : AList K V → K → V → AList K V
  | [], k, v => [(k, v)]
  | (k', v') :: rest, k, v =>
    if k' = k then (k', v) :: rest else (k', v') :: alSet rest k v

/-- Characters kept verbatim by the regex `[^a-z0-9 ]+` of `normalize_text`. -/
def isAllowedChar (c : Char) : Bool :=
  ('a' ≤ c && c ≤ 'z') || ('0' ≤ c && c ≤ '9') || c = ' '

/-- Whitespace in the sense of Python's `str.strip` / `\s` (ASCII part). -/
def isPyWhitespace (c : Char) : Bool :=
  c = ' ' || c = '\t' || c = '\n' || c = '\x0d' || c = '\x0b' || c = '\x0c'

/-- Substitution `re.sub(r"[^a-z0-9 ]+", " ", s)`: every maximal run of
disallowed characters becomes one single space.  The boolean flag records
whether the previous character belonged to such a run. -/
def subNonAlnum : List Char → Bool → List Char
  | [], _ => []
  | c :: cs, inRun =>
    if isAllowedChar c then c :: subNonAlnum cs false
    else if inRun then subNonAlnum cs true
    else ' ' :: subNonAlnum cs true

/-- Substitution `re.sub(r"\s+", " ", s)`: runs of whitespace collapse to a
single space. -/
def subWhitespace : List Char → Bool → List Char
  | [], _ => []
  | c :: cs, inRun =>
    if isPyWhitespace c then
      (if inRun then subWhitespace cs true else ' ' :: subWhitespace cs true)
    else c :: subWhitespace cs false

/-- Python `str.strip()` on the character list. -/
def pyStripChars (l : List Char) : List Char :=
  ((l.dropWhile isPyWhitespace).reverse.dropWhile isPyWhitespace).reverse

/-- Python `str.strip()`. -/
def pyStrip (s : String) : String := String.mk (pyStripChars s.data)

/-- Per-character expansion applied across a list (used for the abstract
NFKD-and-drop-combining stage of `normalize_text`). -/
def charFoldAll (fold : Char → List Char) : List Char → List Char
  | [] => []
  | c :: cs => fold c ++ charFoldAll fold cs

/-- Embeds `utils.normalize_text`: NFKD-decompose and drop combining marks
(the abstract `fold`), lowercase, map hyphen/underscore to space, replace
runs of characters outside `[a-z0-9 ]` by one space, collapse whitespace
runs, strip the ends.  The `None` guard of the source does not arise
(`String` input). -/
def normalize_text (fold : Char → List Char) (s : String) : String :=
  let s1 := charFoldAll fold s.data
  let s2 := s1.map Char.toLower
  let s3 := s2.map (fun c => if c = '-' || c = '_' then ' ' else c)
  let s4 := subNonAlnum s3 false
  let s5 := subWhitespace s4 false
  String.mk (pyStripChars s5)

/-- Python `str.split()` with no separator: split on whitespace runs,
dropping empty pieces.  The accumulator holds the current token reversed. -/
def pySplitAux : List Char → List Char → List String
  | [], acc => if acc = [] then [] else [String.mk acc.reverse]
  | c :: cs, acc =>
    if isPyWhitespace c then
      (if acc = [] then pySplitAux cs [] else String.mk acc.reverse :: pySplitAux cs [])
    else pySplitAux cs (c :: acc)

/-- Python `s.split()`. -/
def pySplit (s : String) : List String := pySplitAux s.data []

/-- Python `" ".join parts`. -/
def joinSpace : List String → String
  | [] => ""
  | [p] => p
  | p :: ps => p ++ " " ++ joinSpace ps

/-- Python `", ".join parts`. -/
def joinComma : List String → String
  | [] => ""
  | [p] => p
  | p :: ps => p ++ ", " ++ joinComma ps

/-- Embeds `utils.normalize_portion` (signature `str | None → str | None`). -/
def normalize_portion (fold : Char → List Char) : Option String → Option String
  | none => none
  | some s =>
    let t := normalize_text fold s
    if t = "" then none
    else if t = "sm" || t = "small" then some "small"
    else if t = "md" || t = "med" || t = "medium" then some "medium"
    else if t = "lg" || t = "large" then some "large"
    else if t = "kid" || t = "kids" then some "kid"
    else if t = "reg" || t = "regular" then some "regular"
    else some t

/-- Keyword scan order of `utils.extract_portion_tokens`, exactly as in the
source tuple. -/
def portionKeywords : List String :=
  ["small", "sm", "medium", "med", "md", "large", "lg", "kid", "kids", "regular", "reg"]

/-- Embeds `utils.extract_portion_tokens`: normalize the text, then return
`normalize_portion` of the first keyword of `portionKeywords` contained in
the token set, else `none`.  The Python `for`-loop with early `return` is
`List.find?`. -/
def extract_portion_tokens (fold : Char → List Char) (text : String) : Option String :=
  let t := normalize_text fold text
  if t = "" then none
  else
    let tokens := pySplit t
    match portionKeywords.find? (fun cand => tokens.contains cand) with
    | some cand => normalize_portion fold (some cand)
    | none => none

/-- The module constant `_DISCOUNT_SUFFIX_TOKENS` of `index.py`. -/
def DISCOUNT_SUFFIX_TOKENS : List String :=
  ["discount", "deal", "offer", "promo", "promotion"]

/-- Embeds `index._normalize_discount_query`: normalize, pop trailing
generic suffix tokens, re-join with single spaces and strip. -/
def normalize_discount_query (fold : Char → List Char) (query : String) : String :=
  let norm := normalize_text fold query
  let parts := pySplit norm
  let parts := (parts.reverse.dropWhile (fun p => DISCOUNT_SUFFIX_TOKENS.contains p)).reverse
  pyStrip (joinSpace parts)

/-- Embeds `models.Price`.  The free-form `raw` payloads of the source
models are omitted throughout: no embedded operation reads them. -/
structure Price where
  portion : Option String := none
  price : ℚ
deriving DecidableEq

/-- Embeds `models.MenuItem`.  The fields `calories_source` and
`item_path_key` are used by `tools.py` and the tests but their declarations
are not in the `models.py` under version control here; they are modelled
from the spec (optional calories provenance tag, opaque path key). -/
structure MenuItem where
  item_id : Int
  title : String
  name : String
  category_path : List String := []
  prices : List Price := []
  calories : Option Int := none
  calories_source : Option String := none
  item_path_key : Option String := none
  description : Option String := none
  applicable_discount_ids : List Int := []
deriving DecidableEq

/-- Embeds `models.Category`. -/
structure Category where
  category_id : Int
  title : String
  category_path : List String := []
deriving DecidableEq

/-- Embeds `models.Discount` (the opaque `raw` payload is omitted, no
embedded operation reads it). -/
structure Discount where
  discount_id : Int
  name : Option String := none
deriving DecidableEq

/-- Embeds `models.MenuIndex`. -/
structure MenuIndex where
  items : AList Int MenuItem := []
  categories : AList Int Category := []
  discounts : AList Int Discount := []
  items_by_norm_name : AList String (List Int) := []
  categories_by_norm_name : AList String (List Int) := []
  discounts_by_norm_name : AList String (List Int) := []
  item_choice_map : AList String String := []
  category_choice_map : AList String String := []
  discount_choice_map : AList String String := []
deriving DecidableEq

/-- Embeds `models.Candidate`. -/
structure Candidate where
  entity_type : String
  entity_id : Int
  display : String
  score : ℚ
deriving DecidableEq

/-- Embeds `models.ResolveResult`. -/
structure ResolveResult where
  ok : Bool
  entity_type : String
  query : String
  resolved_id : Option Int := none
  resolved_display : Option String := none
  candidates : List Candidate := []
  reason : Option String := none
deriving DecidableEq

/-- Module constant `FUZZY_ACCEPT_THRESHOLD` of `index.py`. -/
def FUZZY_ACCEPT_THRESHOLD : ℚ := 90
/-- Module constant `FUZZY_AMBIGUOUS_THRESHOLD` of `index.py`. -/
def FUZZY_AMBIGUOUS_THRESHOLD : ℚ := 80
/-- Module constant `FUZZY_ACCEPT_GAP` of `index.py`. -/
def FUZZY_ACCEPT_GAP : ℚ := 5

/-- Embeds `index._append_index`: skip empty keys, otherwise append the
entity id to the bucket of `key` unless it is already there. -/
def append_index (m : AList String (List Int)) (key : String) (entity_id : Int) :
    AList String (List Int) :=
  if key = "" then m
  else
    match alGet? m key with
    | none => alSet m key [entity_id]
    | some lst => if lst.contains entity_id then m else alSet m key (lst ++ [entity_id])

/-- The composite fuzzy-pool key, Python `f"{entity_id}|{variant}"`. -/
def choiceKey (entity_id : Int) (variant : String) : String :=
  toString entity_id ++ "|" ++ variant

/-- Embeds `index._add_choice`: skip empty normalized strings, otherwise
register the variant under its composite key. -/
def add_choice (choice_map : AList String String) (entity_id : Int) (variant : String)
    (norm : String) : AList String String :=
  if norm = "" then choice_map else alSet choice_map (choiceKey entity_id variant) norm

/-- One registration of a single name variant `(variant, raw)` of an entity:
exact-map append plus fuzzy-pool registration of the normalized string. -/
def register_variant (fold : Char → List Char)
    (acc : AList String (List Int) × AList String String) (eid : Int)
    (v : String × String) : AList String (List Int) × AList String String :=
  let norm := normalize_text fold v.2
  (append_index acc.1 norm eid, add_choice acc.2 eid v.1 norm)

/-- The body of the item loop of `index.build_index`: register the two name
variants (`name`, `title`) of one item. -/
def item_step (fold : Char → List Char)
    (acc : AList String (List Int) × AList String String) (p : Int × MenuItem) :
    AList String (List Int) × AList String String :=
  [("name", p.2.name), ("title", p.2.title)].foldl
    (fun acc v => register_variant fold acc p.1 v) acc

/-- The item loop of `index.build_index`, producing the pair
(`items_by_norm_name`, `item_choice_map`). -/
def build_item_maps (fold : Char → List Char) (items : AList Int MenuItem) :
    AList String (List Int) × AList String String :=
  items.foldl (item_step fold) ([], [])

/-- The body of the category loop of `index.build_index`. -/
def category_step (fold : Char → List Char)
    (acc : AList String (List Int) × AList String String) (p : Int × Category) :
    AList String (List Int) × AList String String :=
  register_variant fold acc p.1 ("title", p.2.title)

/-- The category loop of `index.build_index`. -/
def build_category_maps (fold : Char → List Char) (categories : AList Int Category) :
    AList String (List Int) × AList String String :=
  categories.foldl (category_step fold) ([], [])

/-- The body of the discount loop of `index.build_index`; only discounts
with a truthy (non-`None`, non-empty) `name` are registered. -/
def discount_step (fold : Char → List Char)
    (acc : AList String (List Int) × AList String String) (p : Int × Discount) :
    AList String (List Int) × AList String String :=
  match p.2.name with
  | some nm => if nm = "" then acc else register_variant fold acc p.1 ("name", nm)
  | none => acc

/-- The discount loop of `index.build_index`. -/
def build_discount_maps (fold : Char → List Char) (discounts : AList Int Discount) :
    AList String (List Int) × AList String String :=
  discounts.foldl (discount_step fold) ([], [])

/-- Embeds `index.build_index`.  The source threads one mutable `MenuIndex`
through three loops that touch pairwise disjoint fields; each loop is
modelled by its own fold and the results are assembled into the record. -/
def build_index (fold : Char → List Char) (items : AList Int MenuItem)
    (categories : AList Int Category) (discounts : AList Int Discount) : MenuIndex :=
  let im := build_item_maps fold items
  let cm := build_category_maps fold categories
  let dm := build_discount_maps fold discounts
  { items := items, categories := categories, discounts := discounts,
    items_by_norm_name := im.1, item_choice_map := im.2,
    categories_by_norm_name := cm.1, category_choice_map := cm.2,
    discounts_by_norm_name := dm.1, discount_choice_map := dm.2 }

/-- Embeds `index._candidates_from_exact` (an append loop, i.e. a map):
every colliding id becomes a candidate with score 100. -/
def candidates_from_exact (entity_type : String) (ids : List Int)
    (display_lookup : Int → String) : List Candidate :=
  ids.map (fun eid =>
    { entity_type := entity_type, entity_id := eid, display := display_lookup eid,
      score := 100 })

/-- Decimal parse of a character list: `some` exactly on non-empty all-digit
input (the shape of Python `int` on the strings arising here). -/
def parseNatChars (l : List Char) : Option Nat :=
  if l ≠ [] ∧ l.all (fun c => '0' ≤ c && c ≤ '9') then
    some (l.foldl (fun n c => n * 10 + (c.toNat - '0'.toNat)) 0)
  else none

/-- Python `int(s)` for a possibly sign-prefixed decimal string. -/
def parseIntChars : List Char → Option Int
  | '-' :: rest => (parseNatChars rest).map (fun n => -(n : Int))
  | l => (parseNatChars l).map Int.ofNat

/-- Python `int(choice_key.split("|", 1)[0])` wrapped in try/except: the text
before the first bar, parsed as an integer, `none` on failure. -/
def choiceKeyId (choice_key : String) : Option Int :=
  parseIntChars (choice_key.data.takeWhile (fun c => c ≠ '|'))

/-- Stable descending insertion: the new element goes after every element
whose score is at least its own. -/
def insertDesc (c : Candidate) : List Candidate → List Candidate
  | [] => [c]
  | d :: ds => if d.score < c.score then c :: d :: ds else d :: insertDesc c ds

/-- Python `sorted(key=score, reverse=True)`: a stable descending sort. -/
def sortByScoreDesc (l : List Candidate) : List Candidate :=
  l.foldl (fun acc c => insertDesc c acc) []

/-- Embeds `index._consolidate_fuzzy_matches`: keep the best-scoring match
per entity id (first-seen insertion order, as a Python dict), sort by score
descending (stable) and truncate to `top_k`.  A match is the rapidfuzz
triple `(choice_value, score, choice_key)`. -/
def consolidate_fuzzy_matches (entity_type : String)
    (raw_matches : List (String × ℚ × String)) (display_lookup : Int → String)
    (top_k : Nat) : List Candidate :=
  let best_by_id : AList Int Candidate :=
    raw_matches.foldl
      (fun m t =>
        match choiceKeyId t.2.2 with
        | none => m
        | some eid =>
          let cand : Candidate :=
            { entity_type := entity_type, entity_id := eid,
              display := display_lookup eid, score := t.2.1 }
          match alGet? m eid with
          | some prev => if prev.score < t.2.1 then alSet m eid cand else m
          | none => alSet m eid cand)
      []
  (sortByScoreDesc (best_by_id.map Prod.snd)).take top_k

/-- Embeds `index._resolve_generic` (the unused `index` parameter of the
source is dropped; `extract` abstracts `rapidfuzz.process.extract` with
scorer `fuzz.WRatio`). -/
def resolve_generic (fold : Char → List Char)
    (extract : String → AList String String → Nat → List (String × ℚ × String))
    (entity_type : String) (query : String)
    (exact_map : AList String (List Int)) (choice_map : AList String String)
    (display_lookup : Int → String) (top_k : Nat) : ResolveResult :=
  let norm_q := normalize_text fold query
  if norm_q = "" then
    { ok := false, entity_type := entity_type, query := query, reason := some "empty_query" }
  else
    match (alGet? exact_map norm_q).getD [] with
    | [eid] =>
      { ok := true, entity_type := entity_type, query := query,
        resolved_id := some eid, resolved_display := some (display_lookup eid),
        candidates := [], reason := some "exact" }
    | e1 :: e2 :: rest =>
      { ok := false, entity_type := entity_type, query := query,
        candidates := candidates_from_exact entity_type ((e1 :: e2 :: rest).take top_k) display_lookup,
        reason := some "ambiguous_exact" }
    | [] =>
      if choice_map = [] then
        { ok := false, entity_type := entity_type, query := query, reason := some "no_choices" }
      else
        let raw_matches := extract norm_q choice_map (top_k * 3)
        let consolidated := consolidate_fuzzy_matches entity_type raw_matches display_lookup top_k
        match consolidated with
        | [] =>
          { ok := false, entity_type := entity_type, query := query, reason := some "no_match" }
        | best :: others =>
          let gapOk : Bool :=
            match others.head? with
            | none => true
            | some second => decide (FUZZY_ACCEPT_GAP ≤ best.score - second.score)
          if decide (FUZZY_ACCEPT_THRESHOLD ≤ best.score) && gapOk then
            { ok := true, entity_type := entity_type, query := query,
              resolved_id := some best.entity_id, resolved_display := some best.display,
              candidates := best :: others, reason := some "fuzzy_accept" }
          else
            { ok := false, entity_type := entity_type, query := query,
              candidates := best :: others,
              reason := some (if FUZZY_AMBIGUOUS_THRESHOLD ≤ best.score
                then "fuzzy_ambiguous" else "fuzzy_low_confidence") }

/-- Embeds `index.resolve_item` (tracing is a stderr no-op and not
modelled). -/
def resolve_item (fold : Char → List Char)
    (extract : String → AList String String → Nat → List (String × ℚ × String))
    (index : MenuIndex) (query : String) (top_k : Nat) : ResolveResult :=
  let display_lookup := fun item_id =>
    match alGet? index.items item_id with
    | some item => item.name
    | none => toString item_id
  resolve_generic fold extract "item" query index.items_by_norm_name
    index.item_choice_map display_lookup top_k

/-- Embeds `index.resolve_category`. -/
def resolve_category (fold : Char → List Char)
    (extract : String → AList String String → Nat → List (String × ℚ × String))
    (index : MenuIndex) (query : String) (top_k : Nat) : ResolveResult :=
  let display_lookup := fun cat_id =>
    match alGet? index.categories cat_id with
    | some cat => cat.title
    | none => toString cat_id
  resolve_generic fold extract "category" query index.categories_by_norm_name
    index.category_choice_map display_lookup top_k

/-- Characters accepted by Python `str.isdigit`: the decimal digits plus
digit-classified characters that are not decimal, represented here by the
superscript digits (a documented subset of the Unicode table). -/
def pyIsDigitChar (c : Char) : Bool :=
  ('0' ≤ c && c ≤ '9') || c = '¹' || c = '²' || c = '³'

/-- Python `s.isdigit()`: non-empty and all characters digit-classified. -/
def pyIsDigit (s : String) : Bool :=
  !(s.data = []) && s.data.all pyIsDigitChar

/-- Python `int(s)` on a string whose characters are digit-classified:
ASCII-decimal strings parse to their value, the non-decimal digit
characters (superscripts) make `int` raise, modelled as `none`. -/
def pyIntOfDigits (s : String) : Option Int :=
  if s.data ≠ [] ∧ s.data.all (fun c => '0' ≤ c && c ≤ '9') then
    some (Int.ofNat (s.data.foldl (fun n c => n * 10 + (c.toNat - '0'.toNat)) 0))
  else none

/-- Python `disc.name or str(did)`. -/
def discountDisplay (d : Discount) (did : Int) : String :=
  match d.name with
  | some nm => if nm = "" then toString did else nm
  | none => toString did

/-- Embeds `index.resolve_discount`.  A purely numeric (per `str.isdigit`)
trimmed query is first tried as a direct id lookup (`int(q)` may raise,
modelled as `Except.error`); otherwise — and on an id miss — the query is
suffix-stripped by `_normalize_discount_query` (falling back to the trimmed
query when stripping empties it) and resolved through
`_resolve_generic`. -/
def resolve_discount (fold : Char → List Char)
    (extract : String → AList String String → Nat → List (String × ℚ × String))
    (index : MenuIndex) (query : String) (top_k : Nat) : Except String ResolveResult :=
  let q := pyStrip query
  let display_lookup := fun did =>
    match alGet? index.discounts did with
    | some disc => discountDisplay disc did
    | none => toString did
  let match_query :=
    let s := normalize_discount_query fold q
    if s = "" then q else s
  let text_result :=
    resolve_generic fold extract "discount" match_query index.discounts_by_norm_name
      index.discount_choice_map display_lookup top_k
  if pyIsDigit q then
    match pyIntOfDigits q with
    | none => .error "ValueError: invalid literal for int() with base 10"
    | some did =>
      match alGet? index.discounts did with
      | some d =>
        .ok { ok := true, entity_type := "discount", query := query,
              resolved_id := some did, resolved_display := some (discountDisplay d did),
              candidates := [], reason := some "id" }
      | none => .ok text_result
  else .ok text_result

/-- Embeds `models.ToolError`.  Modelled from the spec: the class declaration
is not in the `models.py` under version control here; the shape (error code
plus human message) follows the spec's tool error taxonomy and the use in
`tools.py`. -/
structure ToolError where
  code : String
  message : String
deriving DecidableEq

/-- One entry of a `ToolResult.candidates` list, which in the source is a
list of plain dicts of one of two shapes: a resolver candidate dict or a
portion/price dict from the price tool. -/
inductive CandEntry where
  | resolver (entity_type : String) (entity_id : Int) (display : String) (score : ℚ)
  | portionPrice (portion : Option String) (price : ℚ)
deriving DecidableEq

/-- The `data` payload dicts built by the embedded tools. -/
inductive ToolData where
  | priceData (item_id : Int) (item_name : String) (item_title : String)
      (portion : Option String) (price : ℚ) (currency : Option String)
      (category_path : List String)
  | caloriesData (item_id : Int) (item_name : String) (calories : Int)
      (source : String) (category_path : List String)
deriving DecidableEq

/-- Values stored in the diagnostic `meta` dicts of the tools. -/
inductive MetaV where
  | s (v : String)
  | os (v : Option String)
  | i (v : Int)
  | b (v : Bool)
  | sl (v : List String)
deriving DecidableEq

/-- Embeds `models.ToolResult`.  Modelled from the spec plus its use in
`tools.py` (the class declaration is not in the `models.py` under version
control here).  The `meta` dict unions of the source (`{**meta, ...}`)
always add fresh keys and are modelled as list appends. -/
structure ToolResult where
  ok : Bool
  tool : String
  data : Option ToolData := none
  error : Option ToolError := none
  candidates : List CandEntry := []
  meta : List (String × MetaV) := []
deriving DecidableEq

/-- Embeds `tools._candidates_from_resolve`. -/
def candidates_from_resolve (rr : ResolveResult) : List CandEntry :=
  rr.candidates.map (fun c => .resolver c.entity_type c.entity_id c.display c.score)

/-- Message of the NOT_FOUND branch of `tools._resolve_or_error`. -/
def notFoundMessage (query : String) : String :=
  "I couldn't find '" ++ query ++ "'. Did you mean one of these?"

/-- Message of the AMBIGUOUS branch of `tools._resolve_or_error`. -/
def ambiguousMessage (query : String) : String :=
  "I found multiple matches for '" ++ query ++ "'. Which one did you mean?"

/-- Embeds `tools._resolve_or_error`: `none` on resolver success, otherwise
the translated tool failure (AMBIGUOUS only for exact collisions or
high-confidence fuzzy ambiguity, NOT_FOUND for everything else), with the
resolver candidates attached and the internal reason kept in `meta`. -/
def resolve_or_error (rr : ResolveResult) (tool_name : String) (query : String) :
    Option ToolResult :=
  if rr.ok then none
  else
    let is_ambiguous : Bool :=
      if rr.reason = some "ambiguous_exact" then true
      else if rr.reason = some "fuzzy_ambiguous" then
        decide (2 ≤ (rr.candidates.filter
          (fun c => decide (FUZZY_ACCEPT_THRESHOLD ≤ c.score))).length)
      else false
    let code := if is_ambiguous then "AMBIGUOUS" else "NOT_FOUND"
    let msg := if code = "NOT_FOUND" then notFoundMessage query else ambiguousMessage query
    some { ok := false, tool := tool_name,
           error := some { code := code, message := msg },
           candidates := candidates_from_resolve rr,
           meta := [("resolve_reason", .os rr.reason), ("query", .s rr.query),
                    ("original_query", .s query)] }

/-- Embeds `tools._join_human`. -/
def join_human (items : List String) : String :=
  let items := items.filter (fun i => i ≠ "")
  match items with
  | [] => ""
  | [a] => a
  | [a, b] => a ++ " and " ++ b
  | l => joinComma l.dropLast ++ ", and " ++ l.getLastD ""

/-- Truthiness of the `if p.portion` filters in `tools.get_item_price`. -/
def truthyPortion (p : Price) : Bool :=
  match p.portion with
  | some s => s ≠ ""
  | none => false

/-- The portion clarification message shared by the AMBIGUOUS and
INVALID_ARGUMENT branches of `tools.get_item_price`. -/
def portionMessage (item_name : String) (portions : List String) : String :=
  item_name ++ " is available in " ++ join_human portions ++ ". Which portion do you want?"

/-- Embeds `tools.get_item_price`.  The `assert` on `resolved_id` and the
raw `index.items[...]` subscript are the only fallible points, modelled as
`Except.error`. -/
def get_item_price (fold : Char → List Char)
    (extract : String → AList String String → Nat → List (String × ℚ × String))
    (index : MenuIndex) (item_query : String) (portion : Option String)
    (channel : Option String) : Except String ToolResult :=
  let tool := "get_item_price"
  let rr := resolve_item fold extract index item_query 5
  match resolve_or_error rr tool item_query with
  | some err => .ok err
  | none =>
    match rr.resolved_id with
    | none => .error "AssertionError"
    | some rid =>
      match alGet? index.items rid with
      | none => .error "KeyError"
      | some item =>
        let meta0 : List (String × MetaV) :=
          [("resolved_item_id", .i item.item_id), ("resolved_item_name", .s item.name)]
        let meta :=
          match channel with
          | some ch => meta0 ++ [("channel_requested_but_unavailable", .b true),
                                 ("channel_requested", .s ch)]
          | none => meta0
        match item.prices with
        | [] =>
          .ok { ok := false, tool := tool,
                error := some { code := "INCOMPLETE_DATA",
                                message := "No price data found for this item." },
                meta := meta }
        | [p] =>
          .ok { ok := true, tool := tool,
                data := some (.priceData item.item_id item.name item.title p.portion
                  p.price none item.category_path),
                meta := meta }
        | _ :: _ :: _ =>
          let available_prices :=
            (item.prices.filter truthyPortion).map
              (fun p => CandEntry.portionPrice p.portion p.price)
          let portions : List String :=
            (item.prices.filter truthyPortion).filterMap (fun p => p.portion)
          match portion with
          | none =>
            .ok { ok := false, tool := tool,
                  error := some { code := "AMBIGUOUS",
                                  message := portionMessage item.name portions },
                  candidates := available_prices,
                  meta := meta ++ [("available_portions", .sl portions)] }
          | some pstr =>
            match normalize_portion fold (some pstr) with
            | none =>
              .ok { ok := false, tool := tool,
                    error := some { code := "INVALID_ARGUMENT",
                                    message := portionMessage item.name portions },
                    candidates := available_prices,
                    meta := meta ++ [("available_portions", .sl portions)] }
            | some req =>
              match item.prices.find? (fun p => normalize_portion fold p.portion = some req) with
              | some p =>
                .ok { ok := true, tool := tool,
                      data := some (.priceData item.item_id item.name item.title p.portion
                        p.price none item.category_path),
                      meta := meta ++ [("portion_normalized", .s req)] }
              | none =>
                .ok { ok := false, tool := tool,
                      error := some { code := "INVALID_ARGUMENT",
                                      message := portionMessage item.name portions },
                      candidates := available_prices,
                      meta := meta ++ [("available_portions", .sl portions),
                                       ("portion_normalized", .s req)] }

/-- Python `source or "structured"` in `tools.get_item_calories`. -/
def sourceOrStructured : Option String → String
  | some s => if s = "" then "structured" else s
  | none => "structured"

/-- Embeds `tools.get_item_calories`. -/
def get_item_calories (fold : Char → List Char)
    (extract : String → AList String String → Nat → List (String × ℚ × String))
    (index : MenuIndex) (item_query : String) : Except String ToolResult :=
  let tool := "get_item_calories"
  let rr := resolve_item fold extract index item_query 5
  match resolve_or_error rr tool item_query with
  | some err => .ok err
  | none =>
    match rr.resolved_id with
    | none => .error "AssertionError"
    | some rid =>
      match alGet? index.items rid with
      | none => .error "KeyError"
      | some item =>
        match item.calories with
        | none =>
          .ok { ok := false, tool := tool,
                error := some { code := "INCOMPLETE_DATA",
                                message := "Calories not available for this item." },
                meta := [("resolved_item_id", .i item.item_id),
                         ("resolved_item_name", .s item.name)] }
        | some c =>
          .ok { ok := true, tool := tool,
                data := some (.caloriesData item.item_id item.name c
                  (sourceOrStructured item.calories_source) item.category_path),
                meta := [("resolved_item_id", .i item.item_id)] }

/-! Concrete instances used by the witnesses. -/

/-- The NFKD-and-drop-combining stage is the identity on ASCII text; this is
the concrete fold used by the witnesses. -/
def asciiFold : Char → List Char := fun c => [c]

/-- A degenerate external similarity extractor returning no raw matches. -/
def noExtract : String → AList String String → Nat → List (String × ℚ × String) :=
  fun _ _ _ => []

/-- An extractor producing one raw fuzzy match for the item pool, standing
in for a rapidfuzz run with a clear winner. -/
def oneMatchExtract : String → AList String String → Nat → List (String × ℚ × String) :=
  fun _ _ _ => [("dragon bowl", 91, "1|name")]

/-- The literal 7.99 as a kernel-computable rational. -/
def smallPrice : ℚ := ⟨799, 100, by decide, by decide⟩

/-- The literal 9.99 as a kernel-computable rational. -/
def mediumPrice : ℚ := ⟨999, 100, by decide, by decide⟩

/-- The literal 11.99 as a kernel-computable rational. -/
def largePrice : ℚ := ⟨1199, 100, by decide, by decide⟩

/-- The portioned sample item of the spec's price example. -/
def dragonItem : MenuItem :=
  { item_id := 1, title := "Dragon Bowl", name := "Dragon Bowl",
    prices := [{ portion := some "Small", price := smallPrice },
               { portion := some "Medium", price := mediumPrice },
               { portion := some "Large", price := largePrice }],
    calories := some 240, calories_source := some "parsed" }

/-- A sample index holding the portioned item and one named discount. -/
def sampleIndex : MenuIndex :=
  build_index asciiFold [(1, dragonItem)] []
    [(7, { discount_id := 7, name := some "BOGO Any Smoothie" })]

/-- An index built out of empty tables. -/
def emptyIndex : MenuIndex := build_index asciiFold [] [] []

/-! Small facts about the embedded resolver used by several proofs. -/

/-- Membership in a Python-style dict assignment: an entry of `alSet m k v`
is the new binding or one of the old entries. -/
theorem mem_alSet {K V : Type} [DecidableEq K] {m : AList K V} {k : K} {v : V}
    {x : K × V} (hx : x ∈ alSet m k v) : x = (k, v) ∨ x ∈ m := by
  induction m with
  | nil => simpa [alSet] using hx
  | cons hd tl ih =>
    obtain ⟨k', v'⟩ := hd
    simp only [alSet] at hx
    by_cases hk : k' = k
    · rw [if_pos hk] at hx
      rcases List.mem_cons.mp hx with h | h
      · exact Or.inl (by rw [h, hk])
      · exact Or.inr (List.mem_cons_of_mem _ h)
    · rw [if_neg hk] at hx
      rcases List.mem_cons.mp hx with h | h
      · exact Or.inr (by simp [h])
      · rcases ih h with h1 | h1
        · exact Or.inl h1
        · exact Or.inr (List.mem_cons_of_mem _ h1)

/-- C1: when resolution reaches the fuzzy stage (non-empty normalized query,
exact-map miss, non-empty choice pool) and consolidation yields candidates
`best :: others`, the resolver returns success with reason `fuzzy_accept`,
resolved id/display from `best` and the full consolidated list attached, if
and only if `best.score ≥ 90` and the second candidate is absent or trails
by at least 5 points; otherwise it fails with the consolidated candidates
attached and reason `fuzzy_ambiguous` when `best.score ≥ 80`, else
`fuzzy_low_confidence`. -/
theorem c1_fuzzy_threshold_policy (fold : Char → List Char)
    (extract : String → AList String String → Nat → List (String × ℚ × String))
    (et q : String) (em : AList String (List Int)) (cm : AList String String)
    (dl : Int → String) (k : Nat) (best : Candidate) (others : List Candidate)
    (hnorm : normalize_text fold q ≠ "")
    (hexact : (alGet? em (normalize_text fold q)).getD [] = [])
    (hcm : cm ≠ [])
    (hcons : consolidate_fuzzy_matches et (extract (normalize_text fold q) cm (k * 3)) dl k
      = best :: others) :
    (resolve_generic fold extract et q em cm dl k =
        { ok := true, entity_type := et, query := q, resolved_id := some best.entity_id,
          resolved_display := some best.display, candidates := best :: others,
          reason := some "fuzzy_accept" }
      ↔ FUZZY_ACCEPT_THRESHOLD ≤ best.score ∧
          ∀ second ∈ others.head?, FUZZY_ACCEPT_GAP ≤ best.score - second.score)
    ∧ (¬ (FUZZY_ACCEPT_THRESHOLD ≤ best.score ∧
          ∀ second ∈ others.head?, FUZZY_ACCEPT_GAP ≤ best.score - second.score) →
        resolve_generic fold extract et q em cm dl k =
        { ok := false, entity_type := et, query := q, resolved_id := none,
          resolved_display := none, candidates := best :: others,
          reason := some (if FUZZY_AMBIGUOUS_THRESHOLD ≤ best.score then "fuzzy_ambiguous"
            else "fuzzy_low_confidence") }) := by
  have hgoal : resolve_generic fold extract et q em cm dl k =
      (if (decide (FUZZY_ACCEPT_THRESHOLD ≤ best.score) &&
            match others.head? with
            | none => true
            | some second => decide (FUZZY_ACCEPT_GAP ≤ best.score - second.score)) = true then
        { ok := true, entity_type := et, query := q, resolved_id := some best.entity_id,
          resolved_display := some best.display, candidates := best :: others,
          reason := some "fuzzy_accept" }
      else
        { ok := false, entity_type := et, query := q, resolved_id := none,
          resolved_display := none, candidates := best :: others,
          reason := some (if FUZZY_AMBIGUOUS_THRESHOLD ≤ best.score then "fuzzy_ambiguous"
            else "fuzzy_low_confidence") }) := by
    rw [resolve_generic]
    simp only [if_neg hnorm, hexact, if_neg hcm, hcons]
  constructor
  · rw [hgoal]
    by_cases h1 : FUZZY_ACCEPT_THRESHOLD ≤ best.score
    · cases hh : others.head? with
      | none =>
        simp [h1, hh]
      | some second =>
        by_cases h2 : FUZZY_ACCEPT_GAP ≤ best.score - second.score
        · simp [h1, hh, h2]
        · simp [h1, hh, h2, ResolveResult.mk.injEq]
    · simp [h1, ResolveResult.mk.injEq]
  · intro hrej
    rw [hgoal, if_neg]
    simp only [Bool.and_eq_true, decide_eq_true_eq]
    intro hacc
    apply hrej
    refine ⟨hacc.1, ?_⟩
    intro second hsec
    rcases hh : others.head? with _ | s
    · rw [hh] at hsec; cases hsec
    · rw [hh] at hsec
      have := hacc.2
      rw [hh] at this
      simp only [decide_eq_true_eq] at this
      cases hsec
      exact this

/-- C1 witness: a concrete fuzzy run with one consolidated candidate of
score 91 is accepted with reason `fuzzy_accept`. -/
theorem c1_witness :
    (resolve_generic asciiFold oneMatchExtract "item" "dragon bwl" []
        [("1|name", "dragon bowl")] (fun _ => "Dragon Bowl") 5 =
      { ok := true, entity_type := "item", query := "dragon bwl", resolved_id := some 1,
        resolved_display := some "Dragon Bowl",
        candidates := [{ entity_type := "item", entity_id := 1, display := "Dragon Bowl",
                         score := 91 }],
        reason := some "fuzzy_accept" }
      ↔ FUZZY_ACCEPT_THRESHOLD ≤
          ({ entity_type := "item", entity_id := 1, display := "Dragon Bowl",
             score := 91 } : Candidate).score ∧
        ∀ second ∈ ([] : List Candidate).head?,
          FUZZY_ACCEPT_GAP ≤
            ({ entity_type := "item", entity_id := 1, display := "Dragon Bowl",
               score := 91 } : Candidate).score - second.score) :=
  (c1_fuzzy_threshold_policy asciiFold oneMatchExtract "item" "dragon bwl" []
    [("1|name", "dragon bowl")] (fun _ => "Dragon Bowl") 5
    { entity_type := "item", entity_id := 1, display := "Dragon Bowl", score := 91 } []
    (by decide) (by decide) (by decide) (by decide)).1

/-- C2: on a non-empty normalized query, an exact-map bucket holding exactly
one id yields success with reason `exact`, that id and its display string
and no candidates; a bucket holding several ids yields failure with reason
`ambiguous_exact` and the colliding ids as score-100 candidates carrying the
canonical display string, truncated to `top_k`. -/
theorem c2_exact_stage (fold : Char → List Char)
    (extract : String → AList String String → Nat → List (String × ℚ × String))
    (et q : String) (em : AList String (List Int)) (cm : AList String String)
    (dl : Int → String) (k : Nat)
    (hnorm : normalize_text fold q ≠ "") :
    (∀ eid, alGet? em (normalize_text fold q) = some [eid] →
        resolve_generic fold extract et q em cm dl k =
          { ok := true, entity_type := et, query := q, resolved_id := some eid,
            resolved_display := some (dl eid), candidates := [], reason := some "exact" })
    ∧ (∀ e1 e2 rest, alGet? em (normalize_text fold q) = some (e1 :: e2 :: rest) →
        resolve_generic fold extract et q em cm dl k =
          { ok := false, entity_type := et, query := q, resolved_id := none,
            resolved_display := none,
            candidates := ((e1 :: e2 :: rest).take k).map (fun eid =>
              { entity_type := et, entity_id := eid, display := dl eid, score := 100 }),
            reason := some "ambiguous_exact" }) := by
  constructor
  · intro eid hids
    rw [resolve_generic]
    simp only [if_neg hnorm, hids, Option.getD_some]
  · intro e1 e2 rest hids
    rw [resolve_generic]
    simp only [if_neg hnorm, hids, Option.getD_some]
    rfl

/-- C2 witness: a two-entry collision bucket for the normalized query
"dragon bowl" produces the `ambiguous_exact` failure with both score-100
candidates, and a singleton bucket produces the `exact` success. -/
theorem c2_witness :
    resolve_generic asciiFold noExtract "item" "dragon bowl"
        [("dragon bowl", [1, 2])] [] (fun _ => "Dragon Bowl") 5 =
      { ok := false, entity_type := "item", query := "dragon bowl", resolved_id := none,
        resolved_display := none,
        candidates := (([1, 2] : List Int).take 5).map (fun eid =>
          { entity_type := "item", entity_id := eid, display := "Dragon Bowl", score := 100 }),
        reason := some "ambiguous_exact" } :=
  (c2_exact_stage asciiFold noExtract "item" "dragon bowl" [("dragon bowl", [1, 2])] []
    (fun _ => "Dragon Bowl") 5 (by decide)).2 1 2 [] (by decide)

/-- C3: the claim promises that resolution never raises for any input
string including unicode edge cases, but `resolve_discount` evaluates
Python `int(q)` guarded only by `q.isdigit()`; the superscript-two query
makes `isdigit` true while `int` raises `ValueError`, so the call ends in
an exception instead of a `ResolveResult`. -/
theorem c3_superscript_digit_crash :
    resolve_discount asciiFold noExtract emptyIndex "²" 5 =
      .error "ValueError: invalid literal for int() with base 10" := by
  rfl

/-- C4: a trimmed all-digit discount query that parses and hits the discount
table resolves directly by id (success, reason `id`, no candidates, no text
matching); every other query goes through the generic text resolver on the
suffix-stripped form of the trimmed query, falling back to the trimmed
query itself when stripping leaves nothing. -/
theorem c4_discount_id_and_suffix_stripping (fold : Char → List Char)
    (extract : String → AList String String → Nat → List (String × ℚ × String))
    (index : MenuIndex) (q : String) (k : Nat) :
    (∀ did d, pyIsDigit (pyStrip q) = true → pyIntOfDigits (pyStrip q) = some did →
        alGet? index.discounts did = some d →
        resolve_discount fold extract index q k =
          .ok { ok := true, entity_type := "discount", query := q, resolved_id := some did,
                resolved_display := some (discountDisplay d did), candidates := [],
                reason := some "id" })
    ∧ (∀ did, pyIsDigit (pyStrip q) = true → pyIntOfDigits (pyStrip q) = some did →
        alGet? index.discounts did = none →
        resolve_discount fold extract index q k =
          .ok (resolve_generic fold extract "discount"
            (if normalize_discount_query fold (pyStrip q) = "" then pyStrip q
              else normalize_discount_query fold (pyStrip q))
            index.discounts_by_norm_name index.discount_choice_map
            (fun did2 =>
              match alGet? index.discounts did2 with
              | some disc => discountDisplay disc did2
              | none => toString did2) k))
    ∧ (pyIsDigit (pyStrip q) = false →
        resolve_discount fold extract index q k =
          .ok (resolve_generic fold extract "discount"
            (if normalize_discount_query fold (pyStrip q) = "" then pyStrip q
              else normalize_discount_query fold (pyStrip q))
            index.discounts_by_norm_name index.discount_choice_map
            (fun did2 =>
              match alGet? index.discounts did2 with
              | some disc => discountDisplay disc did2
              | none => toString did2) k)) := by
  refine ⟨?_, ?_, ?_⟩
  · intro did d hdig hparse hget
    rw [resolve_discount]
    simp only [hdig, hparse, hget, if_pos]
  · intro did hdig hparse hget
    rw [resolve_discount]
    simp only [hdig, hparse, hget, if_pos]
  · intro hdig
    rw [resolve_discount]
    simp only [hdig, Bool.false_eq_true, if_false]

/-- C4 witness: the concrete query "7" id-resolves against the sample
index, and the concrete query "bogo any smoothie discount" is routed to the
text resolver on the stripped form. -/
theorem c4_witness :
    resolve_discount asciiFold noExtract sampleIndex "7" 5 =
      .ok { ok := true, entity_type := "discount", query := "7", resolved_id := some 7,
            resolved_display := some (discountDisplay
              { discount_id := 7, name := some "BOGO Any Smoothie" } 7),
            candidates := [], reason := some "id" } :=
  (c4_discount_id_and_suffix_stripping asciiFold noExtract sampleIndex "7" 5).1 7
    { discount_id := 7, name := some "BOGO Any Smoothie" } (by decide) (by decide) (by decide)

/-- On resolver success `_resolve_or_error` is a no-op. -/
theorem resolve_or_error_of_ok (rr : ResolveResult) (t q : String) (h : rr.ok = true) :
    resolve_or_error rr t q = none := by
  simp [resolve_or_error, h]

/-- C7: on a successfully resolved item, the calorie tool returns
`INCOMPLETE_DATA` exactly when the item's calories field is null, and
otherwise succeeds carrying exactly the item's calories value and its
provenance tag (defaulted to "structured" when the tag is absent or
empty). -/
theorem c7_calorie_tool (fold : Char → List Char)
    (extract : String → AList String String → Nat → List (String × ℚ × String))
    (index : MenuIndex) (item_query : String) (rid : Int) (item : MenuItem)
    (hok : (resolve_item fold extract index item_query 5).ok = true)
    (hid : (resolve_item fold extract index item_query 5).resolved_id = some rid)
    (hitem : alGet? index.items rid = some item) :
    (item.calories = none →
      get_item_calories fold extract index item_query =
        .ok { ok := false, tool := "get_item_calories",
              error := some { code := "INCOMPLETE_DATA",
                              message := "Calories not available for this item." },
              meta := [("resolved_item_id", .i item.item_id),
                       ("resolved_item_name", .s item.name)] })
    ∧ (∀ c, item.calories = some c →
      get_item_calories fold extract index item_query =
        .ok { ok := true, tool := "get_item_calories",
              data := some (.caloriesData item.item_id item.name c
                (sourceOrStructured item.calories_source) item.category_path),
              meta := [("resolved_item_id", .i item.item_id)] }) := by
  constructor
  · intro hc
    rw [get_item_calories]
    rw [resolve_or_error_of_ok _ _ _ hok]
    simp only [hid, hitem, hc]
  · intro c hc
    rw [get_item_calories]
    rw [resolve_or_error_of_ok _ _ _ hok]
    simp only [hid, hitem, hc]

/-- C7 witness: the sample item with calories 240 and provenance "parsed"
yields success with exactly those values. -/
theorem c7_witness :
    get_item_calories asciiFold noExtract sampleIndex "dragon bowl" =
      .ok { ok := true, tool := "get_item_calories",
            data := some (.caloriesData dragonItem.item_id dragonItem.name 240
              (sourceOrStructured dragonItem.calories_source) dragonItem.category_path),
            meta := [("resolved_item_id", .i dragonItem.item_id)] } :=
  (c7_calorie_tool asciiFold noExtract sampleIndex "dragon bowl" 1 dragonItem
    (by decide) (by decide) (by decide)).2 240 (by decide)

/-- C6: a resolver failure fed into the price or calorie tool becomes an
`AMBIGUOUS` tool error exactly when the failure reason is `ambiguous_exact`,
or is `fuzzy_ambiguous` with at least two candidates scoring at least 90;
every other reason becomes `NOT_FOUND`.  The resolver's candidates are
attached, the message is one of two fixed templates mentioning only the
query, and the internal reason appears only in the diagnostic `meta`. -/
theorem c6_failure_code_translation (fold : Char → List Char)
    (extract : String → AList String String → Nat → List (String × ℚ × String))
    (index : MenuIndex) (query : String) (portion channel : Option String)
    (rr : ResolveResult)
    (hrr : resolve_item fold extract index query 5 = rr)
    (hfail : rr.ok = false) :
    (∀ tool, resolve_or_error rr tool query = some
      { ok := false, tool := tool,
        error := some (if rr.reason = some "ambiguous_exact" ∨
            (rr.reason = some "fuzzy_ambiguous" ∧
              2 ≤ (rr.candidates.filter
                (fun c => decide (FUZZY_ACCEPT_THRESHOLD ≤ c.score))).length) then
          { code := "AMBIGUOUS", message := ambiguousMessage query }
          else { code := "NOT_FOUND", message := notFoundMessage query }),
        candidates := candidates_from_resolve rr,
        meta := [("resolve_reason", .os rr.reason), ("query", .s rr.query),
                 ("original_query", .s query)] })
    ∧ (∀ tr, resolve_or_error rr "get_item_price" query = some tr →
        get_item_price fold extract index query portion channel = .ok tr)
    ∧ (∀ tr, resolve_or_error rr "get_item_calories" query = some tr →
        get_item_calories fold extract index query = .ok tr) := by
  refine ⟨?_, ?_, ?_⟩
  · intro tool
    rw [resolve_or_error]
    simp only [hfail, Bool.false_eq_true, if_false]
    by_cases h1 : rr.reason = some "ambiguous_exact"
    · simp [h1]
    · by_cases h2 : rr.reason = some "fuzzy_ambiguous"
      · by_cases h3 : 2 ≤ (rr.candidates.filter
            (fun c => decide (FUZZY_ACCEPT_THRESHOLD ≤ c.score))).length
        · simp [h1, h2, h3]
        · simp [h1, h2, h3]
      · simp [h1, h2]
  · intro tr htr
    rw [get_item_price, hrr, htr]
  · intro tr htr
    rw [get_item_calories, hrr, htr]

/-- C6 witness: on the empty index the query "zzz" fails with reason
`no_choices`, which the price tool surfaces as `NOT_FOUND` with the template
message and the reason kept in `meta`. -/
theorem c6_witness :
    get_item_price asciiFold noExtract emptyIndex "zzz" none none =
      .ok { ok := false, tool := "get_item_price",
            error := some { code := "NOT_FOUND", message := notFoundMessage "zzz" },
            candidates := candidates_from_resolve
              (resolve_item asciiFold noExtract emptyIndex "zzz" 5),
            meta := [("resolve_reason",
                .os (resolve_item asciiFold noExtract emptyIndex "zzz" 5).reason),
              ("query", .s (resolve_item asciiFold noExtract emptyIndex "zzz" 5).query),
              ("original_query", .s "zzz")] } := by
  have h := c6_failure_code_translation asciiFold noExtract emptyIndex "zzz" none none
    (resolve_item asciiFold noExtract emptyIndex "zzz" 5) rfl (by decide)
  refine h.2.1 _ ?_
  rw [h.1 "get_item_price"]
  decide

/-- C5: on an item resolved with several portioned price records, the price
tool returns `AMBIGUOUS` with every available portion (label and price) as
candidates when no portion was supplied; `INVALID_ARGUMENT` when the
supplied portion does not normalize; `INVALID_ARGUMENT` naming the
available portions in the message and as candidates when it normalizes but
matches none of them (each normalized the same way); and the matching
record's price on a match. -/
theorem c5_price_portion_policy (fold : Char → List Char)
    (extract : String → AList String String → Nat → List (String × ℚ × String))
    (index : MenuIndex) (item_query : String) (rid : Int) (item : MenuItem)
    (p1 p2 : Price) (rest : List Price)
    (hok : (resolve_item fold extract index item_query 5).ok = true)
    (hid : (resolve_item fold extract index item_query 5).resolved_id = some rid)
    (hitem : alGet? index.items rid = some item)
    (hprices : item.prices = p1 :: p2 :: rest)
    (hport : ∀ p ∈ item.prices, truthyPortion p = true) :
    (get_item_price fold extract index item_query none none =
      .ok { ok := false, tool := "get_item_price",
            error := some (ToolError.mk "AMBIGUOUS"
              (portionMessage item.name (item.prices.filterMap (fun p => p.portion)))),
            candidates := item.prices.map (fun p => CandEntry.portionPrice p.portion p.price),
            meta := [("resolved_item_id", .i item.item_id),
                     ("resolved_item_name", .s item.name),
                     ("available_portions", .sl (item.prices.filterMap (fun p => p.portion)))] })
    ∧ (∀ ps, normalize_portion fold (some ps) = none →
      get_item_price fold extract index item_query (some ps) none =
        .ok { ok := false, tool := "get_item_price",
              error := some (ToolError.mk "INVALID_ARGUMENT"
                (portionMessage item.name (item.prices.filterMap (fun p => p.portion)))),
              candidates := item.prices.map (fun p => CandEntry.portionPrice p.portion p.price),
              meta := [("resolved_item_id", .i item.item_id),
                       ("resolved_item_name", .s item.name),
                       ("available_portions", .sl (item.prices.filterMap (fun p => p.portion)))] })
    ∧ (∀ ps req, normalize_portion fold (some ps) = some req →
      item.prices.find? (fun p => normalize_portion fold p.portion = some req) = none →
      get_item_price fold extract index item_query (some ps) none =
        .ok { ok := false, tool := "get_item_price",
              error := some (ToolError.mk "INVALID_ARGUMENT"
                (portionMessage item.name (item.prices.filterMap (fun p => p.portion)))),
              candidates := item.prices.map (fun p => CandEntry.portionPrice p.portion p.price),
              meta := [("resolved_item_id", .i item.item_id),
                       ("resolved_item_name", .s item.name),
                       ("available_portions", .sl (item.prices.filterMap (fun p => p.portion))),
                       ("portion_normalized", .s req)] })
    ∧ (∀ ps req p, normalize_portion fold (some ps) = some req →
      item.prices.find? (fun p => normalize_portion fold p.portion = some req) = some p →
      get_item_price fold extract index item_query (some ps) none =
        .ok { ok := true, tool := "get_item_price",
              data := some (.priceData item.item_id item.name item.title p.portion
                p.price none item.category_path),
              meta := [("resolved_item_id", .i item.item_id),
                       ("resolved_item_name", .s item.name),
                       ("portion_normalized", .s req)] }) := by
  have hfilter : List.filter truthyPortion (p1 :: p2 :: rest) = p1 :: p2 :: rest := by
    rw [← hprices]
    exact List.filter_eq_self.mpr hport
  refine ⟨?_, ?_, ?_, ?_⟩
  · rw [get_item_price, resolve_or_error_of_ok _ _ _ hok]
    simp only [hid, hitem, hprices, hfilter, List.cons_append, List.nil_append]
  · intro ps hps
    rw [get_item_price, resolve_or_error_of_ok _ _ _ hok]
    simp only [hid, hitem, hprices, hfilter, hps, List.cons_append, List.nil_append]
  · intro ps req hps hfind
    rw [get_item_price, resolve_or_error_of_ok _ _ _ hok]
    rw [hprices] at hfind
    simp only [hid, hitem, hprices, hfilter, hps, hfind, List.cons_append, List.nil_append]
  · intro ps req p hps hfind
    rw [get_item_price, resolve_or_error_of_ok _ _ _ hok]
    rw [hprices] at hfind
    simp only [hid, hitem, hprices, hfilter, hps, hfind, List.cons_append, List.nil_append]

/-- C5 witness: the spec's example item priced Small 7.99 / Medium 9.99 /
Large 11.99, queried with portion "large", succeeds with price 11.99. -/
theorem c5_witness :
    get_item_price asciiFold noExtract sampleIndex "dragon bowl" (some "large") none =
      .ok { ok := true, tool := "get_item_price",
            data := some (.priceData dragonItem.item_id dragonItem.name dragonItem.title
              (some "Large") largePrice none dragonItem.category_path),
            meta := [("resolved_item_id", .i dragonItem.item_id),
                     ("resolved_item_name", .s dragonItem.name),
                     ("portion_normalized", .s "large")] } :=
  (c5_price_portion_policy asciiFold noExtract sampleIndex "dragon bowl" 1 dragonItem
    { portion := some "Small", price := smallPrice }
    { portion := some "Medium", price := mediumPrice }
    [{ portion := some "Large", price := largePrice }]
    (by decide) (by decide) (by decide) (by decide) (by decide)).2.2.2 "large" "large"
    { portion := some "Large", price := largePrice } (by decide) (by decide)

/-- The generic resolver echoes its `query` argument in every branch. -/
theorem resolve_generic_query_eq (fold : Char → List Char)
    (extract : String → AList String String → Nat → List (String × ℚ × String))
    (et q : String) (em : AList String (List Int)) (cm : AList String String)
    (dl : Int → String) (k : Nat) :
    (resolve_generic fold extract et q em cm dl k).query = q := by
  simp only [resolve_generic]
  repeat' split
  all_goals rfl

/-- The generic resolver never produces the discount-only reason `id`. -/
theorem resolve_generic_reason_ne_id (fold : Char → List Char)
    (extract : String → AList String String → Nat → List (String × ℚ × String))
    (et q : String) (em : AList String (List Int)) (cm : AList String String)
    (dl : Int → String) (k : Nat) :
    (resolve_generic fold extract et q em cm dl k).reason ≠ some "id" := by
  simp only [resolve_generic]
  repeat' split
  all_goals simp

/-- C8 counterexample: for the discount query "x discount" the returned
result carries the suffix-stripped match form "x", not the caller's
original query string. -/
theorem c8_counterexample :
    resolve_discount asciiFold noExtract emptyIndex "x discount" 5 =
      .ok { ok := false, entity_type := "discount", query := "x", resolved_id := none,
            resolved_display := none, candidates := [], reason := some "no_choices" }
    ∧ ("x" : String) ≠ "x discount" :=
  ⟨rfl, by decide⟩

/-- C8 (amended): the ResolveResult carries the query string the resolver
matched on — the caller's query exactly as supplied for item and category
resolution and for the discount direct-id path, but the trimmed,
suffix-stripped match form for discount text resolution. -/
theorem c8_amended_query_field (fold : Char → List Char)
    (extract : String → AList String String → Nat → List (String × ℚ × String))
    (index : MenuIndex) (q : String) (k : Nat) :
    ((resolve_item fold extract index q k).query = q)
    ∧ ((resolve_category fold extract index q k).query = q)
    ∧ (∀ r, resolve_discount fold extract index q k = .ok r →
        (r.reason = some "id" → r.query = q)
        ∧ (r.reason ≠ some "id" →
            r.query = (if normalize_discount_query fold (pyStrip q) = "" then pyStrip q
              else normalize_discount_query fold (pyStrip q)))) := by
  refine ⟨?_, ?_, ?_⟩
  · simp only [resolve_item]
    exact resolve_generic_query_eq ..
  · simp only [resolve_category]
    exact resolve_generic_query_eq ..
  · intro r hr
    rw [resolve_discount] at hr
    simp only at hr
    by_cases hdig : pyIsDigit (pyStrip q) = true
    · rw [if_pos hdig] at hr
      cases hparse : pyIntOfDigits (pyStrip q) with
      | none => rw [hparse] at hr; cases hr
      | some did =>
        rw [hparse] at hr
        dsimp only at hr
        cases hget : alGet? index.discounts did with
        | some d =>
          rw [hget] at hr
          rw [Except.ok.injEq] at hr
          constructor
          · intro _
            rw [← hr]
          · intro hne
            exfalso
            apply hne
            rw [← hr]
        | none =>
          rw [hget] at hr
          rw [Except.ok.injEq] at hr
          constructor
          · intro hid2
            exfalso
            exact resolve_generic_reason_ne_id fold extract "discount" _ _ _ _ k
              (by rw [hr]; exact hid2)
          · intro _
            rw [← hr]
            exact resolve_generic_query_eq ..
    · rw [if_neg hdig] at hr
      rw [Except.ok.injEq] at hr
      constructor
      · intro hid2
        exfalso
        exact resolve_generic_reason_ne_id fold extract "discount" _ _ _ _ k
          (by rw [hr]; exact hid2)
      · intro _
        rw [← hr]
        exact resolve_generic_query_eq ..

/-- C8 witness: the concrete discount text resolution of "x discount"
carries the match form given by the suffix-stripping rule. -/
theorem c8_witness :
    ({ ok := false, entity_type := "discount", query := "x", resolved_id := none,
       resolved_display := none, candidates := [],
       reason := some "no_choices" } : ResolveResult).query =
      (if normalize_discount_query asciiFold (pyStrip "x discount") = ""
        then pyStrip "x discount"
        else normalize_discount_query asciiFold (pyStrip "x discount")) :=
  ((c8_amended_query_field asciiFold noExtract emptyIndex "x discount" 5).2.2
    { ok := false, entity_type := "discount", query := "x", resolved_id := none,
      resolved_display := none, candidates := [], reason := some "no_choices" } rfl).2
    (by decide)

/-- C9 counterexample: for the text "large or small" — normalized tokens
["large", "or", "small"], first-occurring portion keyword "large" — the
extractor returns "small", because it scans keywords in its fixed priority
order over the token set rather than by position in the text. -/
theorem c9_counterexample :
    extract_portion_tokens asciiFold "large or small" = some "small"
    ∧ (some "small" : Option String) ≠ some "large" := by
  constructor
  · rfl
  · decide

/-- C9 (amended): the extractor returns `normalize_portion` of the first
keyword in the fixed scan order small, sm, medium, med, md, large, lg, kid,
kids, regular, reg that occurs among the normalized tokens of the text (as
a set, not by position in the text), and `none` when the normalized text is
empty or no keyword occurs. -/
theorem c9_amended_keyword_priority (fold : Char → List Char) (text : String) (p : String) :
    extract_portion_tokens fold text = some p ↔
      (normalize_text fold text ≠ "" ∧
        ∃ i, ∃ hi : i < portionKeywords.length,
          (pySplit (normalize_text fold text)).contains (portionKeywords.get ⟨i, hi⟩) = true
          ∧ (∀ j, ∀ hj : j < i,
              (pySplit (normalize_text fold text)).contains
                (portionKeywords.get ⟨j, Nat.lt_trans hj hi⟩) = false)
          ∧ normalize_portion fold (some (portionKeywords.get ⟨i, hi⟩)) = some p) := by
  rw [extract_portion_tokens]
  by_cases ht : normalize_text fold text = ""
  · simp [ht]
  · simp only [if_neg ht]
    cases hfind : portionKeywords.find?
        (fun cand => (pySplit (normalize_text fold text)).contains cand) with
    | none =>
      rw [List.find?_eq_none] at hfind
      simp only [ht, not_false_iff, true_and]
      constructor
      · intro h; cases h
      · rintro ⟨-, i, hi, hcont, -, -⟩
        exact absurd hcont (hfind _ (List.get_mem portionKeywords i hi))
    | some kw =>
      rw [List.find?_eq_some_iff_getElem] at hfind
      obtain ⟨hkw, i, hi, hget, hbefore⟩ := hfind
      constructor
      · intro hnp
        refine ⟨ht, i, hi, ?_, ?_, ?_⟩
        · simpa [List.get_eq_getElem, hget] using hkw
        · intro j hj
          have := hbefore j hj
          simpa [List.get_eq_getElem] using this
        · simpa [List.get_eq_getElem, hget] using hnp
      · rintro ⟨-, i2, hi2, hcont2, hbefore2, hnp2⟩
        have hii : i = i2 := by
          rcases Nat.lt_trichotomy i i2 with h | h | h
          · have h1 : (pySplit (normalize_text fold text)).contains
                (portionKeywords.get ⟨i, Nat.lt_trans h hi2⟩) = false := hbefore2 i h
            have h2 : portionKeywords.get ⟨i, Nat.lt_trans h hi2⟩ = kw := by
              simpa [List.get_eq_getElem] using hget
            rw [h2, hkw] at h1
            cases h1
          · exact h
          · have h1 := hbefore i2 h
            have h2 : portionKeywords.get ⟨i2, hi2⟩ = portionKeywords[i2] := by
              simp [List.get_eq_getElem]
            rw [h2] at hcont2
            rw [hcont2] at h1
            cases h1
        subst hii
        have : portionKeywords.get ⟨i, hi⟩ = kw := by
          simp [List.get_eq_getElem, hget]
        rw [this] at hnp2
        exact hnp2

/-- C9 witness: instantiating the amended characterization at the
counterexample text yields the priority index of "small". -/
theorem c9_witness :
    normalize_text asciiFold "large or small" ≠ "" ∧
      ∃ i, ∃ hi : i < portionKeywords.length,
        (pySplit (normalize_text asciiFold "large or small")).contains
          (portionKeywords.get ⟨i, hi⟩) = true
        ∧ (∀ j, ∀ hj : j < i,
            (pySplit (normalize_text asciiFold "large or small")).contains
              (portionKeywords.get ⟨j, Nat.lt_trans hj hi⟩) = false)
        ∧ normalize_portion asciiFold (some (portionKeywords.get ⟨i, hi⟩)) = some "small" :=
  (c9_amended_keyword_priority asciiFold "large or small" "small").mp (by rfl)

/-- A successful association-list lookup is a membership. -/
theorem alGet?_mem {K V : Type} [DecidableEq K] {m : AList K V} {k : K} {v : V}
    (h : alGet? m k = some v) : (k, v) ∈ m := by
  induction m with
  | nil => cases h
  | cons hd tl ih =>
    obtain ⟨k', v'⟩ := hd
    simp only [alGet?] at h
    by_cases hk : k' = k
    · rw [if_pos hk] at h
      cases h
      simp [hk]
    · rw [if_neg hk] at h
      exact List.mem_cons_of_mem _ (ih h)

/-- `_append_index` keeps exact-map keys non-empty. -/
theorem append_index_keys_ne {m : AList String (List Int)} {key : String} {eid : Int}
    (hm : ∀ e ∈ m, e.1 ≠ "") : ∀ e ∈ append_index m key eid, e.1 ≠ "" := by
  intro e he
  rw [append_index] at he
  by_cases hkey : key = ""
  · rw [if_pos hkey] at he
    exact hm e he
  · rw [if_neg hkey] at he
    cases hget : alGet? m key with
    | none =>
      rw [hget] at he
      rcases mem_alSet he with h | h
      · rw [h]; exact hkey
      · exact hm e h
    | some lst =>
      rw [hget] at he
      dsimp only at he
      by_cases hc : lst.contains eid
      · rw [if_pos hc] at he
        exact hm e he
      · rw [if_neg hc] at he
        rcases mem_alSet he with h | h
        · rw [h]; exact hkey
        · exact hm e h

/-- `_append_index` never introduces the id `x` into a bucket when `x` is
not the appended id (or when the key is empty, a skip). -/
theorem append_index_id_absent {m : AList String (List Int)} {key : String} {eid x : Int}
    (hm : ∀ e ∈ m, x ∉ e.2) (hx : x = eid → key = "") :
    ∀ e ∈ append_index m key eid, x ∉ e.2 := by
  intro e he
  rw [append_index] at he
  by_cases hkey : key = ""
  · rw [if_pos hkey] at he
    exact hm e he
  · rw [if_neg hkey] at he
    have hxe : x ≠ eid := fun hxx => hkey (hx hxx)
    cases hget : alGet? m key with
    | none =>
      rw [hget] at he
      rcases mem_alSet he with h | h
      · rw [h]
        simpa using hxe
      · exact hm e h
    | some lst =>
      rw [hget] at he
      dsimp only at he
      by_cases hc : lst.contains eid
      · rw [if_pos hc] at he
        exact hm e he
      · rw [if_neg hc] at he
        rcases mem_alSet he with h | h
        · rw [h]
          simp only [List.mem_append, List.mem_singleton]
          rintro (hin | hin)
          · exact hm _ (alGet?_mem hget) hin
          · exact hxe hin
        · exact hm e h

/-- `_add_choice` keeps choice-map values non-empty. -/
theorem add_choice_vals_ne {cm : AList String String} {eid : Int} {v norm : String}
    (hm : ∀ e ∈ cm, e.2 ≠ "") : ∀ e ∈ add_choice cm eid v norm, e.2 ≠ "" := by
  intro e he
  rw [add_choice] at he
  by_cases hn : norm = ""
  · rw [if_pos hn] at he
    exact hm e he
  · rw [if_neg hn] at he
    rcases mem_alSet he with h | h
    · rw [h]; exact hn
    · exact hm e h

/-- `_add_choice` never introduces the target key `t` when the composite
key differs from `t` (or when the normalized string is empty, a skip). -/
theorem add_choice_key_absent {cm : AList String String} {eid : Int} {v norm t : String}
    (hm : ∀ e ∈ cm, e.1 ≠ t) (ht : choiceKey eid v = t → norm = "") :
    ∀ e ∈ add_choice cm eid v norm, e.1 ≠ t := by
  intro e he
  rw [add_choice] at he
  by_cases hn : norm = ""
  · rw [if_pos hn] at he
    exact hm e he
  · rw [if_neg hn] at he
    rcases mem_alSet he with h | h
    · rw [h]
      exact fun hkt => hn (ht hkt)
    · exact hm e h

/-- In a list with `Nodup` keys, a key determines its value. -/
theorem nodup_key_unique {K V : Type} {l : List (K × V)} (hnd : (l.map Prod.fst).Nodup)
    {k : K} {a b : V} (ha : (k, a) ∈ l) (hb : (k, b) ∈ l) : b = a := by
  induction l with
  | nil => cases ha
  | cons hd tl ih =>
    rw [List.map_cons, List.nodup_cons] at hnd
    rcases List.mem_cons.mp ha with h1 | h1 <;> rcases List.mem_cons.mp hb with h2 | h2
    · rw [← h1] at h2
      exact congrArg Prod.snd h2
    · exfalso
      apply hnd.1
      rw [← h1]
      simpa using List.mem_map_of_mem Prod.fst h2
    · exfalso
      apply hnd.1
      rw [← h2]
      simpa using List.mem_map_of_mem Prod.fst h1
    · exact ih hnd.2 h1 h2

/-- A single variant registration keeps exact keys and choice values
non-empty. -/
theorem register_variant_clean (fold : Char → List Char)
    (acc : AList String (List Int) × AList String String) (eid : Int) (v : String × String)
    (h1 : ∀ e ∈ acc.1, e.1 ≠ "") (h2 : ∀ e ∈ acc.2, e.2 ≠ "") :
    (∀ e ∈ (register_variant fold acc eid v).1, e.1 ≠ "")
    ∧ (∀ e ∈ (register_variant fold acc eid v).2, e.2 ≠ "") := by
  rw [register_variant]
  exact ⟨append_index_keys_ne h1, add_choice_vals_ne h2⟩

/-- The item loop keeps exact keys and choice values non-empty. -/
theorem build_item_maps_clean (fold : Char → List Char) (l : AList Int MenuItem) :
    ∀ acc : AList String (List Int) × AList String String,
      (∀ e ∈ acc.1, e.1 ≠ "") → (∀ e ∈ acc.2, e.2 ≠ "") →
      (∀ e ∈ (l.foldl (item_step fold) acc).1, e.1 ≠ "")
      ∧ (∀ e ∈ (l.foldl (item_step fold) acc).2, e.2 ≠ "") := by
  induction l with
  | nil => exact fun acc h1 h2 => ⟨h1, h2⟩
  | cons p tl ih =>
    intro acc h1 h2
    rw [List.foldl_cons]
    have hstep : (∀ e ∈ (item_step fold acc p).1, e.1 ≠ "")
        ∧ (∀ e ∈ (item_step fold acc p).2, e.2 ≠ "") := by
      rw [item_step]
      simp only [List.foldl_cons, List.foldl_nil]
      exact register_variant_clean fold _ p.1 _
        (register_variant_clean fold acc p.1 _ h1 h2).1
        (register_variant_clean fold acc p.1 _ h1 h2).2
    exact ih _ hstep.1 hstep.2

/-- The category loop keeps exact keys and choice values non-empty. -/
theorem build_category_maps_clean (fold : Char → List Char) (l : AList Int Category) :
    ∀ acc : AList String (List Int) × AList String String,
      (∀ e ∈ acc.1, e.1 ≠ "") → (∀ e ∈ acc.2, e.2 ≠ "") →
      (∀ e ∈ (l.foldl (category_step fold) acc).1, e.1 ≠ "")
      ∧ (∀ e ∈ (l.foldl (category_step fold) acc).2, e.2 ≠ "") := by
  induction l with
  | nil => exact fun acc h1 h2 => ⟨h1, h2⟩
  | cons p tl ih =>
    intro acc h1 h2
    rw [List.foldl_cons]
    have hstep := register_variant_clean fold acc p.1 ("title", p.2.title) h1 h2
    exact ih _ hstep.1 hstep.2

/-- The discount loop keeps exact keys and choice values non-empty. -/
theorem build_discount_maps_clean (fold : Char → List Char) (l : AList Int Discount) :
    ∀ acc : AList String (List Int) × AList String String,
      (∀ e ∈ acc.1, e.1 ≠ "") → (∀ e ∈ acc.2, e.2 ≠ "") →
      (∀ e ∈ (l.foldl (discount_step fold) acc).1, e.1 ≠ "")
      ∧ (∀ e ∈ (l.foldl (discount_step fold) acc).2, e.2 ≠ "") := by
  induction l with
  | nil => exact fun acc h1 h2 => ⟨h1, h2⟩
  | cons p tl ih =>
    intro acc h1 h2
    rw [List.foldl_cons]
    have hstep : (∀ e ∈ (discount_step fold acc p).1, e.1 ≠ "")
        ∧ (∀ e ∈ (discount_step fold acc p).2, e.2 ≠ "") := by
      rw [discount_step]
      cases p.2.name with
      | none => exact ⟨h1, h2⟩
      | some nm =>
        by_cases hnm : nm = ""
        · simp only [if_pos hnm]
          exact ⟨h1, h2⟩
        · simp only [if_neg hnm]
          exact register_variant_clean fold acc p.1 ("name", nm) h1 h2
    exact ih _ hstep.1 hstep.2

/-- A variant registration for a different entity (or a skipped empty
normalization) cannot introduce the id `iid` or its composite keys. -/
theorem register_variant_absent (fold : Char → List Char)
    (acc : AList String (List Int) × AList String String) (eid : Int) (v : String × String)
    (iid : Int)
    (hskip : eid = iid → normalize_text fold v.2 = "")
    (hkey1 : choiceKey eid v.1 = choiceKey iid "name" → normalize_text fold v.2 = "")
    (hkey2 : choiceKey eid v.1 = choiceKey iid "title" → normalize_text fold v.2 = "")
    (h3 : ∀ e ∈ acc.1, iid ∉ e.2)
    (h4 : ∀ e ∈ acc.2, e.1 ≠ choiceKey iid "name" ∧ e.1 ≠ choiceKey iid "title") :
    (∀ e ∈ (register_variant fold acc eid v).1, iid ∉ e.2)
    ∧ (∀ e ∈ (register_variant fold acc eid v).2,
        e.1 ≠ choiceKey iid "name" ∧ e.1 ≠ choiceKey iid "title") := by
  rw [register_variant]
  constructor
  · exact append_index_id_absent h3 (fun hx => hskip hx.symm)
  · intro e he
    exact ⟨add_choice_key_absent (fun e2 he2 => (h4 e2 he2).1) hkey1 e he,
           add_choice_key_absent (fun e2 he2 => (h4 e2 he2).2) hkey2 e he⟩

/-- The item loop never registers an item whose two name variants both
normalize to the empty string: its id shows up in no exact bucket and its
composite keys in no choice entry. -/
theorem build_item_maps_absent (fold : Char → List Char) (l : AList Int MenuItem)
    (iid : Int)
    (hsafe : ∀ p ∈ l, p.1 = iid →
      normalize_text fold p.2.name = "" ∧ normalize_text fold p.2.title = "")
    (hkeys : ∀ p ∈ l, p.1 ≠ iid → ∀ v ∈ (["name", "title"] : List String),
      ∀ t ∈ (["name", "title"] : List String), choiceKey p.1 v ≠ choiceKey iid t) :
    ∀ acc : AList String (List Int) × AList String String,
      (∀ e ∈ acc.1, iid ∉ e.2) →
      (∀ e ∈ acc.2, e.1 ≠ choiceKey iid "name" ∧ e.1 ≠ choiceKey iid "title") →
      (∀ e ∈ (l.foldl (item_step fold) acc).1, iid ∉ e.2)
      ∧ (∀ e ∈ (l.foldl (item_step fold) acc).2,
          e.1 ≠ choiceKey iid "name" ∧ e.1 ≠ choiceKey iid "title") := by
  induction l with
  | nil => exact fun acc h3 h4 => ⟨h3, h4⟩
  | cons p tl ih =>
    intro acc h3 h4
    rw [List.foldl_cons]
    have hsafep := hsafe p (List.mem_cons_self p tl)
    have hkeysp := hkeys p (List.mem_cons_self p tl)
    have hstep : (∀ e ∈ (item_step fold acc p).1, iid ∉ e.2)
        ∧ (∀ e ∈ (item_step fold acc p).2,
            e.1 ≠ choiceKey iid "name" ∧ e.1 ≠ choiceKey iid "title") := by
      rw [item_step]
      simp only [List.foldl_cons, List.foldl_nil]
      by_cases hp : p.1 = iid
      · have hone := register_variant_absent fold acc p.1 ("name", p.2.name) iid
          (fun _ => (hsafep hp).1) (fun _ => (hsafep hp).1) (fun _ => (hsafep hp).1) h3 h4
        exact register_variant_absent fold _ p.1 ("title", p.2.title) iid
          (fun _ => (hsafep hp).2) (fun _ => (hsafep hp).2) (fun _ => (hsafep hp).2)
          hone.1 hone.2
      · have hone := register_variant_absent fold acc p.1 ("name", p.2.name) iid
          (fun hx => (hp hx).elim)
          (fun hk => ((hkeysp hp "name" (by simp) "name" (by simp)) hk).elim)
          (fun hk => ((hkeysp hp "name" (by simp) "title" (by simp)) hk).elim) h3 h4
        exact register_variant_absent fold _ p.1 ("title", p.2.title) iid
          (fun hx => (hp hx).elim)
          (fun hk => ((hkeysp hp "title" (by simp) "name" (by simp)) hk).elim)
          (fun hk => ((hkeysp hp "title" (by simp) "title" (by simp)) hk).elim)
          hone.1 hone.2
    exact ih (fun p2 hp2 => hsafe p2 (List.mem_cons_of_mem _ hp2))
      (fun p2 hp2 => hkeys p2 (List.mem_cons_of_mem _ hp2)) _ hstep.1 hstep.2

/-- The discount loop never registers a discount whose name is absent,
empty, or normalizes to the empty string. -/
theorem build_discount_maps_absent (fold : Char → List Char) (l : AList Int Discount)
    (did : Int)
    (hsafe : ∀ p ∈ l, p.1 = did → ∀ nm, p.2.name = some nm →
      nm = "" ∨ normalize_text fold nm = "")
    (hkeys : ∀ p ∈ l, p.1 ≠ did → choiceKey p.1 "name" ≠ choiceKey did "name") :
    ∀ acc : AList String (List Int) × AList String String,
      (∀ e ∈ acc.1, did ∉ e.2) →
      (∀ e ∈ acc.2, e.1 ≠ choiceKey did "name") →
      (∀ e ∈ (l.foldl (discount_step fold) acc).1, did ∉ e.2)
      ∧ (∀ e ∈ (l.foldl (discount_step fold) acc).2, e.1 ≠ choiceKey did "name") := by
  induction l with
  | nil => exact fun acc h3 h4 => ⟨h3, h4⟩
  | cons p tl ih =>
    intro acc h3 h4
    rw [List.foldl_cons]
    have hsafep := hsafe p (List.mem_cons_self p tl)
    have hkeysp := hkeys p (List.mem_cons_self p tl)
    have hstep : (∀ e ∈ (discount_step fold acc p).1, did ∉ e.2)
        ∧ (∀ e ∈ (discount_step fold acc p).2, e.1 ≠ choiceKey did "name") := by
      rw [discount_step]
      cases hname : p.2.name with
      | none => exact ⟨h3, h4⟩
      | some nm =>
        by_cases hnm : nm = ""
        · simp only [if_pos hnm]
          exact ⟨h3, h4⟩
        · simp only [if_neg hnm]
          rw [register_variant]
          by_cases hp : p.1 = did
          · have hnorm : normalize_text fold nm = "" := by
              rcases hsafep hp nm hname with h | h
              · exact absurd h hnm
              · exact h
            constructor
            · exact append_index_id_absent h3 (fun _ => hnorm)
            · exact add_choice_key_absent h4 (fun _ => hnorm)
          · constructor
            · exact append_index_id_absent h3 (fun hx => (hp hx.symm).elim)
            · exact add_choice_key_absent h4 (fun hk => ((hkeysp hp) hk).elim)
    exact ih (fun p2 hp2 => hsafe p2 (List.mem_cons_of_mem _ hp2))
      (fun p2 hp2 => hkeys p2 (List.mem_cons_of_mem _ hp2)) _ hstep.1 hstep.2

/-- C10: in every index produced by `build_index`, no exact-match map holds
an entry keyed by the empty normalized string and no fuzzy choice map holds
an empty normalized value; moreover an item both of whose name variants
normalize to the empty string, and a discount whose name is absent, empty
or empty-normalizing, are absent from both structures (id in no exact
bucket, composite key in no choice entry).  The injectivity of the
composite `id|variant` key scheme — a property of the decimal rendering of
ids — is taken as the hypotheses `hkeysI`/`hkeysD`, discharged by
computation in the witness. -/
theorem c10_empty_norm_never_indexed (fold : Char → List Char)
    (items : AList Int MenuItem) (categories : AList Int Category)
    (discounts : AList Int Discount)
    (iid : Int) (item : MenuItem) (did : Int) (disc : Discount)
    (hNodupI : (items.map Prod.fst).Nodup)
    (hmemI : (iid, item) ∈ items)
    (hnameE : normalize_text fold item.name = "")
    (htitleE : normalize_text fold item.title = "")
    (hkeysI : ∀ p ∈ items, p.1 ≠ iid → ∀ v ∈ (["name", "title"] : List String),
      ∀ t ∈ (["name", "title"] : List String), choiceKey p.1 v ≠ choiceKey iid t)
    (hNodupD : (discounts.map Prod.fst).Nodup)
    (hmemD : (did, disc) ∈ discounts)
    (hdiscE : ∀ nm, disc.name = some nm → nm = "" ∨ normalize_text fold nm = "")
    (hkeysD : ∀ p ∈ discounts, p.1 ≠ did → choiceKey p.1 "name" ≠ choiceKey did "name") :
    (∀ e ∈ (build_index fold items categories discounts).items_by_norm_name, e.1 ≠ "")
    ∧ (∀ e ∈ (build_index fold items categories discounts).categories_by_norm_name, e.1 ≠ "")
    ∧ (∀ e ∈ (build_index fold items categories discounts).discounts_by_norm_name, e.1 ≠ "")
    ∧ (∀ e ∈ (build_index fold items categories discounts).item_choice_map, e.2 ≠ "")
    ∧ (∀ e ∈ (build_index fold items categories discounts).category_choice_map, e.2 ≠ "")
    ∧ (∀ e ∈ (build_index fold items categories discounts).discount_choice_map, e.2 ≠ "")
    ∧ (∀ e ∈ (build_index fold items categories discounts).items_by_norm_name, iid ∉ e.2)
    ∧ (∀ e ∈ (build_index fold items categories discounts).item_choice_map,
        e.1 ≠ choiceKey iid "name" ∧ e.1 ≠ choiceKey iid "title")
    ∧ (∀ e ∈ (build_index fold items categories discounts).discounts_by_norm_name, did ∉ e.2)
    ∧ (∀ e ∈ (build_index fold items categories discounts).discount_choice_map,
        e.1 ≠ choiceKey did "name") := by
  have hsafeI : ∀ p ∈ items, p.1 = iid →
      normalize_text fold p.2.name = "" ∧ normalize_text fold p.2.title = "" := by
    rintro ⟨pk, pv⟩ hp rfl
    have hpv : pv = item := nodup_key_unique hNodupI hmemI hp
    rw [hpv]
    exact ⟨hnameE, htitleE⟩
  have hsafeD : ∀ p ∈ discounts, p.1 = did → ∀ nm, p.2.name = some nm →
      nm = "" ∨ normalize_text fold nm = "" := by
    rintro ⟨pk, pv⟩ hp rfl nm hnm
    have hpv : pv = disc := nodup_key_unique hNodupD hmemD hp
    rw [hpv] at hnm
    exact hdiscE nm hnm
  have hnil1 : ∀ e ∈ ([] : AList String (List Int)), e.1 ≠ "" := by simp
  have hnil2 : ∀ e ∈ ([] : AList String String), e.2 ≠ "" := by simp
  have hnil3 : ∀ e ∈ ([] : AList String (List Int)), iid ∉ e.2 := by simp
  have hnil3d : ∀ e ∈ ([] : AList String (List Int)), did ∉ e.2 := by simp
  have hnil4 : ∀ e ∈ ([] : AList String String),
      e.1 ≠ choiceKey iid "name" ∧ e.1 ≠ choiceKey iid "title" := by simp
  have hnil4d : ∀ e ∈ ([] : AList String String), e.1 ≠ choiceKey did "name" := by simp
  have hIclean := build_item_maps_clean fold items ([], []) hnil1 hnil2
  have hCclean := build_category_maps_clean fold categories ([], []) hnil1 hnil2
  have hDclean := build_discount_maps_clean fold discounts ([], []) hnil1 hnil2
  have hIabs := build_item_maps_absent fold items iid hsafeI hkeysI ([], []) hnil3 hnil4
  have hDabs := build_discount_maps_absent fold discounts did hsafeD hkeysD ([], [])
    hnil3d hnil4d
  simp only [build_index, build_item_maps, build_category_maps, build_discount_maps]
  exact ⟨hIclean.1, hCclean.1, hDclean.1, hIclean.2, hCclean.2, hDclean.2,
    hIabs.1, hIabs.2, hDabs.1, hDabs.2⟩

/-- An item whose two name variants normalize to the empty string. -/
def ghostItem : MenuItem := { item_id := 9, title := "--", name := "!!!" }

/-- A discount whose name normalizes to the empty string. -/
def ghostDiscount : Discount := { discount_id := 6, name := some "???" }

/-- Item table holding a normal item and the empty-normalizing one. -/
def c10Items : AList Int MenuItem := [(1, dragonItem), (9, ghostItem)]

/-- Category table for the C10 witness. -/
def c10Categories : AList Int Category := [(3, { category_id := 3, title := "Bowls" })]

/-- Discount table holding a named discount, a nameless one and the
empty-normalizing one. -/
def c10Discounts : AList Int Discount :=
  [(7, { discount_id := 7, name := some "BOGO Any Smoothie" }),
   (5, { discount_id := 5 }), (6, ghostDiscount)]

/-- C10 witness: the invariant instantiated on a concrete table set with an
empty-normalizing item (id 9) and discount (id 6). -/
theorem c10_witness :
    (∀ e ∈ (build_index asciiFold c10Items c10Categories c10Discounts).items_by_norm_name,
      e.1 ≠ "")
    ∧ (∀ e ∈ (build_index asciiFold c10Items c10Categories
        c10Discounts).categories_by_norm_name, e.1 ≠ "")
    ∧ (∀ e ∈ (build_index asciiFold c10Items c10Categories
        c10Discounts).discounts_by_norm_name, e.1 ≠ "")
    ∧ (∀ e ∈ (build_index asciiFold c10Items c10Categories c10Discounts).item_choice_map,
        e.2 ≠ "")
    ∧ (∀ e ∈ (build_index asciiFold c10Items c10Categories c10Discounts).category_choice_map,
        e.2 ≠ "")
    ∧ (∀ e ∈ (build_index asciiFold c10Items c10Categories c10Discounts).discount_choice_map,
        e.2 ≠ "")
    ∧ (∀ e ∈ (build_index asciiFold c10Items c10Categories c10Discounts).items_by_norm_name,
        (9 : Int) ∉ e.2)
    ∧ (∀ e ∈ (build_index asciiFold c10Items c10Categories c10Discounts).item_choice_map,
        e.1 ≠ choiceKey 9 "name" ∧ e.1 ≠ choiceKey 9 "title")
    ∧ (∀ e ∈ (build_index asciiFold c10Items c10Categories
        c10Discounts).discounts_by_norm_name, (6 : Int) ∉ e.2)
    ∧ (∀ e ∈ (build_index asciiFold c10Items c10Categories c10Discounts).discount_choice_map,
        e.1 ≠ choiceKey 6 "name") :=
  c10_empty_norm_never_indexed asciiFold c10Items c10Categories c10Discounts
    9 ghostItem 6 ghostDiscount (by decide) (by decide) (by decide) (by decide) (by decide)
    (by decide) (by decide) (by decide) (by decide)

end MenuQA
